import Mathlib

/-!
Verification development for the smolrtsp wire-level engine.

The development shallowly embeds three source files:
  * `src/request_parser.c` — the incremental RTSP request parser FSM
    (`SmolRTSP_RequestParser_parse`);
  * `examples/server.c` — the media send paths (`start_audio`, `start_video`,
    `send_nalu`);
  * the error-printing module (`SmolRTSP_ParseError_print`).

Byte windows are modelled as `List Char` (the protocol is ASCII text) for the
parser, and as `List Nat` (raw bytes) for the NAL/RTP paths.  Machine
integers that can wrap (the 32-bit RTP timestamp) are modelled as `Nat` with
an explicit `% 2 ^ 32`.  C functions that can exhibit undefined behaviour
(a call through a NULL function pointer, a read through a NULL slice) are
given `Option` result types, with `none` marking the undefined outcome.

The primitive deserializers (`SmolRTSP_Method_deserialize` and friends), the
state enum declaration order, and `smolrtsp_determine_start_code` are not
part of the provided sources; they are modelled from the specification and
are marked `Modelled from the spec:` in their doc comments.  Everything else
is transcribed from the C sources.
-/

/-! ## Request parser state machine (`src/request_parser.c`) -/

/-- The parser state/result enum `SmolRTSP_ParseRequestResult`.

Modelled from the spec: the enum declaration itself lives in a header that is
not among the provided sources; the spec fixes the states and their strict
order `NothingParsed → MethodParsed → RequestURIParsed → RTSPVersionParsed →
HeaderMapParsed → {Ok | Err}` (§4.2). -/
inductive ParseRequestResult where
  | NothingParsed
  | MethodParsed
  | RequestURIParsed
  | RTSPVersionParsed
  | HeaderMapParsed
  | Ok
  | Err
deriving DecidableEq, Repr

/-- The request line `{ method, uri, version }` (`request->start_line`). -/
structure RequestLine where
  method : List Char
  uri : List Char
  version : List Char
deriving DecidableEq, Repr

/-- `SmolRTSP_Request`: the caller-owned destination the parser writes into. -/
structure RtspRequest where
  start_line : RequestLine
  headerMap : List (List Char × List Char)
deriving DecidableEq, Repr

/-- A fresh all-empty request. -/
def emptyRequest : RtspRequest := ⟨⟨[], [], []⟩, []⟩

/-- The `SmolRTSP_DeserializeResult` enum. -/
inductive DeserializeResult where
  | ok
  | err
  | needMore
deriving DecidableEq, Repr

/-- A primitive deserializer: takes the destination request and the current
input window, returns `(result, bytes_read, updated request)`.  This is the
shape of the C `Deserializer` function-pointer type, with the `void *entity`
output parameter made explicit as a `RtspRequest` update. -/
abbrev ReqDeserializer :=
  RtspRequest → List Char → DeserializeResult × Nat × RtspRequest

/-- Token characters: everything up to a space or CRLF byte. -/
def isTokenChar (c : Char) : Bool :=
  !(c == ' ' || c == '\r' || c == '\n')

/-- Modelled from the spec: `SmolRTSP_Method_deserialize` (not among the
provided sources).  §4.1: parses the method token from the byte window,
reporting bytes consumed, `NeedMore` when the window ends mid-token.  §8: a
method containing a non-identifier character (for example an underscore)
fails with `TypeMismatch(Ident, token)`, so a method token consists of
letters only.  On success the token and its delimiting space are consumed. -/
def methodDeserialize : ReqDeserializer := fun req window =>
  let token := window.takeWhile isTokenChar
  if token.length = window.length then
    (.needMore, 0, req)
  else if token ≠ [] ∧ token.all Char.isAlpha ∧ window.getD token.length ' ' = ' ' then
    (.ok, token.length + 1, { req with start_line := { req.start_line with method := token } })
  else
    (.err, 0, req)

/-- Modelled from the spec: `SmolRTSP_RequestURI_deserialize` (not among the
provided sources).  §4.1/§6: the request URI is the non-whitespace token
between the method and the version; it and its delimiting space are
consumed, `NeedMore` when the window ends mid-token. -/
def uriDeserialize : ReqDeserializer := fun req window =>
  let token := window.takeWhile isTokenChar
  if token.length = window.length then
    (.needMore, 0, req)
  else if token ≠ [] ∧ window.getD token.length ' ' = ' ' then
    (.ok, token.length + 1, { req with start_line := { req.start_line with uri := token } })
  else
    (.err, 0, req)

/-- The only supported version token, followed by the line's CRLF (§3: the
version is `enum{RTSP/1.0}`; §6: lines are CRLF-terminated). -/
def rtspVersionLit : List Char := "RTSP/1.0\r\n".toList

/-- Modelled from the spec: `SmolRTSP_RTSPVersion_deserialize` (not among the
provided sources).  Matches the literal `RTSP/1.0` and the CRLF ending the
request line; a window that is a proper prefix of it yields `NeedMore`, a
mismatch yields `Err` (`StrMismatch`). -/
def versionDeserialize : ReqDeserializer := fun req window =>
  if window.length < rtspVersionLit.length then
    if window.isPrefixOf rtspVersionLit then (.needMore, 0, req) else (.err, 0, req)
  else if rtspVersionLit.isPrefixOf window then
    (.ok, rtspVersionLit.length,
      { req with start_line := { req.start_line with version := "RTSP/1.0".toList } })
  else
    (.err, 0, req)

/-- The fixed header-map capacity (§3: fixed-capacity mapping; the concrete
bound lives in the missing `limits.h`, its value is irrelevant here). -/
def headerMapCapacity : Nat := 16

/-- Splits a window at its first CRLF: `some (line, rest)` when a complete
line is present, `none` when the window ends mid-line. -/
def splitCRLF : List Char → Option (List Char × List Char)
  | [] => none
  | '\r' :: '\n' :: rest => some ([], rest)
  | c :: rest => (splitCRLF rest).map fun p => (c :: p.1, p.2)

/-- Parses one header line `Name: value`; `none` on a malformed line. -/
def parseHeaderLine (line : List Char) : Option (List Char × List Char) :=
  let name := line.takeWhile fun c => c != ':'
  if name.length = line.length ∨ name = [] then none
  else some (name, (line.drop (name.length + 1)).dropWhile fun c => c == ' ')

/-- Modelled from the spec: the body of `SmolRTSP_HeaderMap_deserialize` (not
among the provided sources).  §4.2: the header stage consumes header lines
into the map until the blank line ending the header block, at which point it
reports `Ok`; a window ending mid-line yields `NeedMore` with the complete
lines already consumed; exceeding the capacity is a `HeaderMapOverflow`
error (§3).  The fuel argument only bounds the recursion; `window.length + 1`
is always enough since every consumed line is at least two bytes. -/
def headerMapGo : Nat → RtspRequest → List Char → Nat → DeserializeResult × Nat × RtspRequest
  | 0, req, _, consumed => (.needMore, consumed, req)
  | fuel + 1, req, window, consumed =>
    match splitCRLF window with
    | none => (.needMore, consumed, req)
    | some (line, rest) =>
      if line = [] then
        (.ok, consumed + 2, req)
      else
        match parseHeaderLine line with
        | none => (.err, consumed, req)
        | some nv =>
          if headerMapCapacity ≤ req.headerMap.length then
            (.err, consumed, req)
          else
            headerMapGo fuel { req with headerMap := req.headerMap ++ [nv] } rest
              (consumed + line.length + 2)

/-- Modelled from the spec: `SmolRTSP_HeaderMap_deserialize`. -/
def headerMapDeserialize : ReqDeserializer := fun req window =>
  headerMapGo (window.length + 1) req window 0

/-- The C `FSMTransition` record: a deserializer function pointer, the entity
it writes into (folded into the deserializer here), and the state to enter
when it reports `Ok`. -/
structure FSMTransition where
  deserializer : ReqDeserializer
  next_state_if_ok : ParseRequestResult

/-- The C `transition_table`, a designated-initializer array indexed by the
parser state:

    ASSOC(NothingParsed,    Method,      &request->start_line.method),
    ASSOC(MethodParsed,     RequestURI,  &request->start_line.uri),
    ASSOC(RequestURIParsed, RTSPVersion, &request->start_line.version),
    ASSOC(HeaderMapParsed,  HeaderMap,   &request->header_map),

No initializer mentions `RTSPVersionParsed`, so (with the spec's state
order, which places it below `HeaderMapParsed`) that slot is
zero-initialized: its deserializer field is a NULL function pointer.  This
is modelled by returning `none` for every state without an initializer. -/
def transition_table : ParseRequestResult → Option FSMTransition
  | .NothingParsed => some ⟨methodDeserialize, .MethodParsed⟩
  | .MethodParsed => some ⟨uriDeserialize, .RequestURIParsed⟩
  | .RequestURIParsed => some ⟨versionDeserialize, .RTSPVersionParsed⟩
  | .HeaderMapParsed => some ⟨headerMapDeserialize, .HeaderMapParsed⟩
  | _ => none

/-- The `while (true)` loop of `SmolRTSP_RequestParser_parse`.  Faithful to
the C source: `transition` is the local variable read from the table once
before the loop, so every iteration calls the *same* deserializer — the
assignment `parser->state = transition.next_state_if_ok` changes the state
but not the dispatched function.  Returns `(final state, request, total
bytes consumed)`.  The fuel argument bounds the iterations (`none` on
exhaustion would model the C loop running forever); `input.length + 1` is
always enough because every `Ok` outcome of the deserializers consumes at
least one byte. -/
def parseLoop :
    Nat → FSMTransition → ParseRequestResult → RtspRequest → List Char → Nat →
    Option (ParseRequestResult × RtspRequest × Nat)
  | 0, _, _, _, _, _ => none
  | fuel + 1, tr, st, req, input, consumed =>
    let step := tr.deserializer req input
    let n := step.2.1
    let req' := step.2.2
    match step.1 with
    | .ok =>
      if st = .HeaderMapParsed then
        some (.Ok, req', consumed + n)
      else
        parseLoop fuel tr tr.next_state_if_ok req' (input.drop n) (consumed + n)
    | .err => some (.Err, req', consumed + n)
    | .needMore => some (st, req', consumed + n)

/-- `SmolRTSP_RequestParser_parse`.  The parser object is its state (the
cursor is call-local); the function returns the new state together with the
updated request and the number of bytes it consumed from `input`.  `none`
models undefined behaviour: in a non-terminal state whose transition-table
slot is zero-initialized, the C code calls through a NULL function
pointer. -/
def SmolRTSP_RequestParser_parse (st : ParseRequestResult) (req : RtspRequest)
    (input : List Char) : Option (ParseRequestResult × RtspRequest × Nat) :=
  if st = .Ok ∨ st = .Err then
    some (st, req, 0)
  else
    match transition_table st with
    | none => none
    | some tr => parseLoop (input.length + 1) tr st req input 0

/-- Feeds a list of chunks to a fresh parser in order, one
`SmolRTSP_RequestParser_parse` call per chunk, re-presenting the unconsumed
suffix of the previous window in front of each new chunk (§4.1: the caller
must re-present the undiscarded suffix on the next call).  Returns the final
state, the request, and the pending unconsumed bytes; `none` when some call
runs into undefined behaviour. -/
def feedGo :
    List (List Char) → ParseRequestResult → RtspRequest → List Char →
    Option (ParseRequestResult × RtspRequest × List Char)
  | [], st, req, pending => some (st, req, pending)
  | c :: cs, st, req, pending =>
    match SmolRTSP_RequestParser_parse st req (pending ++ c) with
    | none => none
    | some (st', req', n) => feedGo cs st' req' ((pending ++ c).drop n)

/-- Feeds `chunks` to a fresh parser. -/
def feedChunks (chunks : List (List Char)) :
    Option (ParseRequestResult × RtspRequest × List Char) :=
  feedGo chunks .NothingParsed emptyRequest []

/-- The valid SETUP request of §8's scenario. -/
def setupRequestStr : String :=
  "SETUP rtsp://x/audio RTSP/1.0\r\nCSeq: 1\r\nTransport: RTP/AVP/TCP;unicast;interleaved=0-1\r\n\r\n"

/-- The same request split exactly at the method/URI/version stage
boundaries, the header block in the final chunk. -/
def setupBoundaryChunks : List (List Char) :=
  ["SETUP ".toList, "rtsp://x/audio ".toList, "RTSP/1.0\r\n".toList,
   "CSeq: 1\r\nTransport: RTP/AVP/TCP;unicast;interleaved=0-1\r\n\r\n".toList]

/-- The §8 scenario split in two at an arbitrary boundary (mid-header, inside
the `Transport` name). -/
def setupMidHeaderChunks : List (List Char) :=
  ["SETUP rtsp://x/audio RTSP/1.0\r\nCSeq: 1\r\nTransp".toList,
   "ort: RTP/AVP/TCP;unicast;interleaved=0-1\r\n\r\n".toList]

/-- C2.  The claim fails on the code: `transition` is read from the table
once before the `while` loop, so after the method stage reports `Ok` the
loop re-invokes the *method* deserializer (not the URI one) on
`"rtsp://x/audio …"`, which rejects it, and a fully buffered valid request
ends in `Err` (with only the method written) instead of reaching `Ok` in a
single invocation. -/
theorem c2_fully_buffered_request_errs_in_one_call :
    SmolRTSP_RequestParser_parse .NothingParsed emptyRequest setupRequestStr.toList
      = some (.Err, ⟨⟨"SETUP".toList, [], []⟩, []⟩, 6) := by
  decide

/-- C1.  Chunk invariance fails on the code: feeding the whole valid SETUP
request at once ends in `Err`, while feeding it split at the stage
boundaries reaches state `RTSPVersionParsed`, whose zero-initialized
transition-table slot makes the next call go through a NULL deserializer
pointer (modelled `none`); the two chunkings do not yield the same final
result, and neither yields a parsed `Request`. -/
theorem c1_chunk_invariance_fails :
    (feedChunks [setupRequestStr.toList]).map (fun r => r.1) = some ParseRequestResult.Err
      ∧ feedChunks setupBoundaryChunks = none
      ∧ feedChunks [setupRequestStr.toList] ≠ feedChunks setupBoundaryChunks := by
  refine ⟨by decide, by decide, ?_⟩
  decide

/-- C3.  Terminal states are sticky: in state `Ok` or `Err` the parser
returns its state immediately — the request is untouched and zero bytes of
the input are consumed, for any input. -/
theorem c3_terminal_states_sticky (st : ParseRequestResult) (req : RtspRequest)
    (input : List Char) (h : st = .Ok ∨ st = .Err) :
    SmolRTSP_RequestParser_parse st req input = some (st, req, 0) := by
  unfold SmolRTSP_RequestParser_parse
  rw [if_pos h]

/-- Witness for C3 at a concrete terminal parser and nonempty input. -/
theorem c3_terminal_states_sticky_witness :
    SmolRTSP_RequestParser_parse .Ok emptyRequest "SETUP ".toList
      = some (.Ok, emptyRequest, 0) :=
  c3_terminal_states_sticky .Ok emptyRequest "SETUP ".toList (Or.inl rfl)

/-- C4.  The §8 SETUP scenario fails on the code: fed in two chunks split
mid-header, the request ends in state `Err` with only `method = "SETUP"`
written (no URI, no version, no headers), because the first call re-runs the
method deserializer on `"rtsp://x/audio …"` after the method stage. -/
theorem c4_setup_scenario_errs :
    (feedChunks setupMidHeaderChunks).map (fun r => (r.1, r.2.1))
      = some (ParseRequestResult.Err, ⟨⟨"SETUP".toList, [], []⟩, []⟩) := by
  decide

/-- C5.  The claimed safety property fails on the code: state
`RTSPVersionParsed` is a reachable non-terminal state (reached by feeding
the request line in stage-boundary chunks), yet the transition table has no
initializer for it, so its deserializer slot is a NULL function pointer and
the next parse call is a call through NULL (modelled `none`). -/
theorem c5_version_state_has_null_deserializer :
    (feedChunks (setupBoundaryChunks.take 3)).map (fun r => r.1)
        = some ParseRequestResult.RTSPVersionParsed
      ∧ (transition_table .RTSPVersionParsed).isNone = true
      ∧ feedChunks ["SETUP ".toList, "rtsp://x/audio ".toList, "RTSP/1.0\r\n".toList,
          "CSeq".toList] = none := by
  refine ⟨by decide, rfl, by decide⟩

/-! ## Media send paths (`examples/server.c`) -/

/-- `#define VIDEO_SAMPLE_RATE 90000` -/
def VIDEO_SAMPLE_RATE : Nat := 90000

/-- `#define VIDEO_FPS 25` -/
def VIDEO_FPS : Nat := 25

/-- `#define AUDIO_SAMPLES_PER_PACKET 160` -/
def AUDIO_SAMPLES_PER_PACKET : Nat := 160

/-- Modelled from the spec: the H.264 Access Unit Delimiter NAL unit type
(`SMOLRTSP_H264_NAL_UNIT_AUD`, declared in a header not among the provided
sources); the AUD type code is 9. -/
def SMOLRTSP_H264_NAL_UNIT_AUD : Nat := 9

/-- An H.264 NAL header decoded from its byte: forbidden-zero bit, ref-idc,
unit type (§3).  `SmolRTSP_H264NalHeader_parse` itself is not among the
provided sources; the field extraction is the standard H.264 byte layout the
spec's data model describes. -/
structure H264NalHeader where
  forbidden_zero_bit : Nat
  ref_idc : Nat
  unit_type : Nat
deriving DecidableEq, Repr

/-- `SmolRTSP_H264NalHeader_parse` on a header byte. -/
def SmolRTSP_H264NalHeader_parse (b : Nat) : H264NalHeader :=
  ⟨b / 128 % 2, b / 32 % 4, b % 32⟩

/-- A `SmolRTSP_NalUnit`: decoded header plus payload borrow. -/
structure NalUnitMsg where
  header : H264NalHeader
  payload : List Nat
deriving DecidableEq, Repr

/-- The `SmolRTSP_NalUnit` constructed by `send_nalu` from the byte range
`[nalu_start, nalu_end)`: the first byte is decoded as the header, the
remaining bytes are the payload.  (On an empty range the C code would read
`nalu_start[0]` past the range; the theorems only use nonempty units.) -/
def naluOf (bytes : List Nat) : NalUnitMsg :=
  ⟨SmolRTSP_H264NalHeader_parse (bytes.headD 0), bytes.tail⟩

/-- An RTP packet produced by the video path: the NAL unit sent and the
32-bit timestamp passed to `SmolRTSP_NalTransport_send_packet`. -/
structure RtpNalPacket where
  nalu : NalUnitMsg
  timestamp : Nat
deriving DecidableEq, Repr

/-- `send_nalu`: decodes the unit; when its type is an Access Unit Delimiter,
first bumps the running `uint32_t` timestamp by
`VIDEO_SAMPLE_RATE / VIDEO_FPS`; then sends the unit with the (possibly
bumped) timestamp.  Returns the new timestamp and the packet. -/
def send_nalu (timestamp : Nat) (bytes : List Nat) : Nat × RtpNalPacket :=
  let nalu := naluOf bytes
  let ts :=
    if nalu.header.unit_type = SMOLRTSP_H264_NAL_UNIT_AUD then
      (timestamp + VIDEO_SAMPLE_RATE / VIDEO_FPS) % 2 ^ 32
    else timestamp
  (ts, ⟨nalu, ts⟩)

/-- Sends a list of NAL unit byte ranges in order through `send_nalu`,
threading the running timestamp. -/
def sendNalus (timestamp : Nat) : List (List Nat) → List RtpNalPacket
  | [] => []
  | u :: us =>
    let step := send_nalu timestamp u
    step.2 :: sendNalus step.1 us

/-- Whether a unit's byte range decodes to an Access Unit Delimiter (the
test `send_nalu` performs). -/
def isAudNalu (bytes : List Nat) : Bool :=
  (naluOf bytes).header.unit_type == SMOLRTSP_H264_NAL_UNIT_AUD

/-- Number of Access Unit Delimiters among a list of unit byte ranges. -/
def audCount (us : List (List Nat)) : Nat := us.countP isAudNalu

/-- A default packet for `List.getD`. -/
def defaultPacket : RtpNalPacket := ⟨⟨⟨0, 0, 0⟩, []⟩, 0⟩

/-- Timestamp closed form for the video send path: packet `i` carries
`(ts0 + step * audCount (us.take (i+1))) % 2^32`. -/
theorem sendNalus_timestamp (us : List (List Nat)) (ts0 : Nat) (h : ts0 < 2 ^ 32)
    (i : Nat) (hi : i < us.length) :
    ((sendNalus ts0 us).getD i defaultPacket).timestamp
      = (ts0 + VIDEO_SAMPLE_RATE / VIDEO_FPS * audCount (us.take (i + 1))) % 2 ^ 32 := by
  induction us generalizing ts0 i with
  | nil => simp at hi
  | cons u us ih =>
    have hstep : (send_nalu ts0 u).1
        = (ts0 + VIDEO_SAMPLE_RATE / VIDEO_FPS * audCount [u]) % 2 ^ 32 := by
      by_cases hau : (naluOf u).header.unit_type = SMOLRTSP_H264_NAL_UNIT_AUD
      · simp [send_nalu, audCount, isAudNalu, List.countP, List.countP.go, hau]
      · have hbeq : ((naluOf u).header.unit_type == SMOLRTSP_H264_NAL_UNIT_AUD) = false := by
          simp [hau]
        simp [send_nalu, audCount, isAudNalu, List.countP, List.countP.go, hau, hbeq]
        omega
    cases i with
    | zero =>
      have : (sendNalus ts0 (u :: us)).getD 0 defaultPacket = (send_nalu ts0 u).2 := by
        simp [sendNalus]
      rw [this]
      have hpkt : (send_nalu ts0 u).2.timestamp = (send_nalu ts0 u).1 := by
        simp [send_nalu]
      rw [hpkt, hstep]
      simp
    | succ j =>
      have hj : j < us.length := by simpa using Nat.lt_of_succ_lt_succ hi
      have hts' : (send_nalu ts0 u).1 < 2 ^ 32 := by
        by_cases hau : (naluOf u).header.unit_type = SMOLRTSP_H264_NAL_UNIT_AUD
        · simp only [send_nalu, hau, if_pos]
          exact Nat.mod_lt _ (by norm_num)
        · simpa [send_nalu, hau] using h
      have htail : (sendNalus ts0 (u :: us)).getD (j + 1) defaultPacket
          = (sendNalus (send_nalu ts0 u).1 us).getD j defaultPacket := by
        simp [sendNalus]
      rw [htail, ih (send_nalu ts0 u).1 hts' j hj, hstep]
      have hcnt : audCount (List.take (j + 1 + 1) (u :: us))
          = audCount [u] + audCount (List.take (j + 1) us) := by
        simp [audCount, List.take_succ_cons, List.countP_cons]
        by_cases hau : isAudNalu u <;> simp [hau, Nat.add_comm]
      rw [hcnt, Nat.mod_add_mod, Nat.mul_add]
      ring_nf

/-- The video path sends one packet per unit. -/
theorem sendNalus_length (us : List (List Nat)) (ts0 : Nat) :
    (sendNalus ts0 us).length = us.length := by
  induction us generalizing ts0 with
  | nil => rfl
  | cons u us ih => simp [sendNalus, ih]

/-- C6.  AUD timestamp stepping: in the video send path, the `i`-th packet's
timestamp is `ts0` plus exactly `VIDEO_SAMPLE_RATE / VIDEO_FPS` for each
Access Unit Delimiter among the first `i+1` units (32-bit arithmetic).  In
particular the timestamp is bumped by `clock_rate / frame_rate` exactly at
each AUD (the bump happens before that unit is encoded, so the AUD's own
packet already carries it), remains constant across every non-AUD unit, and
advances in no other way; one packet is sent per unit. -/
theorem c6_aud_timestamp_stepping (us : List (List Nat)) (ts0 : Nat)
    (h : ts0 < 2 ^ 32) (i : Nat) (hi : i < us.length) :
    (sendNalus ts0 us).length = us.length
      ∧ ((sendNalus ts0 us).getD i defaultPacket).timestamp
          = (ts0 + VIDEO_SAMPLE_RATE / VIDEO_FPS * audCount (us.take (i + 1))) % 2 ^ 32 :=
  ⟨sendNalus_length us ts0, sendNalus_timestamp us ts0 h i hi⟩

/-- Witness for C6: three units (AUD, non-AUD slice, AUD), checked at the
final packet. -/
theorem c6_aud_timestamp_stepping_witness :
    (sendNalus 0 [[9, 16], [65, 3, 5], [9, 16]]).length = ([[9, 16], [65, 3, 5], [9, 16]] : List (List Nat)).length
      ∧ ((sendNalus 0 [[9, 16], [65, 3, 5], [9, 16]]).getD 2 defaultPacket).timestamp
          = (0 + VIDEO_SAMPLE_RATE / VIDEO_FPS
              * audCount (List.take (2 + 1) [[9, 16], [65, 3, 5], [9, 16]])) % 2 ^ 32 :=
  c6_aud_timestamp_stepping [[9, 16], [65, 3, 5], [9, 16]] 0 (by decide) 2 (by decide)

/-- The `start_audio` loop: packet `i` is sent while
`i * AUDIO_SAMPLES_PER_PACKET < ___media_audio_g711a_len`, with timestamp
`i * AUDIO_SAMPLES_PER_PACKET` and sample count
`len < i*SPP + SPP ? len % SPP : SPP`; `(timestamp, samples_count)` pairs
are recorded per packet.  The fuel argument only bounds the recursion;
`len + 1` iterations always suffice. -/
def startAudioGo : Nat → Nat → Nat → List (Nat × Nat)
  | 0, _, _ => []
  | fuel + 1, len, i =>
    if i * AUDIO_SAMPLES_PER_PACKET < len then
      (i * AUDIO_SAMPLES_PER_PACKET,
        if len < i * AUDIO_SAMPLES_PER_PACKET + AUDIO_SAMPLES_PER_PACKET then
          len % AUDIO_SAMPLES_PER_PACKET
        else
          AUDIO_SAMPLES_PER_PACKET) :: startAudioGo fuel len (i + 1)
    else []

/-- `start_audio` on a media buffer of `len` bytes (one byte per G.711
sample): the sequence of `(timestamp, samples_count)` pairs passed to
`SmolRTSP_RtpTransport_send_packet` — every timestamp is supplied explicitly
by this caller, there is no implicit clock. -/
def start_audio (len : Nat) : List (Nat × Nat) := startAudioGo (len + 1) len 0

/-- Closed form for each packet the audio loop emits. -/
theorem startAudioGo_getD (fuel : Nat) :
    ∀ len i j, j < (startAudioGo fuel len i).length →
      (startAudioGo fuel len i).getD j (0, 0)
        = ((i + j) * AUDIO_SAMPLES_PER_PACKET,
            min AUDIO_SAMPLES_PER_PACKET (len - (i + j) * AUDIO_SAMPLES_PER_PACKET)) := by
  induction fuel with
  | zero => intro len i j hj; simp [startAudioGo] at hj
  | succ fuel ih =>
    intro len i j hj
    by_cases hlt : i * AUDIO_SAMPLES_PER_PACKET < len
    · rw [startAudioGo, if_pos hlt] at hj ⊢
      cases j with
      | zero =>
        simp only [List.getD_cons_zero, Nat.add_zero]
        unfold AUDIO_SAMPLES_PER_PACKET at *
        by_cases hfin : len < i * 160 + 160 <;> simp [hfin] <;> omega
      | succ j =>
        simp only [List.getD_cons_succ]
        have hj' : j < (startAudioGo fuel len (i + 1)).length := by
          simpa using Nat.lt_of_succ_lt_succ hj
        rw [ih len (i + 1) j hj']
        have harith : i + 1 + j = i + (j + 1) := by omega
        rw [harith]
    · rw [startAudioGo, if_neg hlt] at hj
      simp at hj

/-- The audio loop sends `⌈len / AUDIO_SAMPLES_PER_PACKET⌉` packets. -/
theorem startAudioGo_length (fuel : Nat) :
    ∀ len i, len ≤ i * AUDIO_SAMPLES_PER_PACKET + fuel * AUDIO_SAMPLES_PER_PACKET →
      (startAudioGo fuel len i).length
        = (len - i * AUDIO_SAMPLES_PER_PACKET + (AUDIO_SAMPLES_PER_PACKET - 1))
            / AUDIO_SAMPLES_PER_PACKET := by
  induction fuel with
  | zero =>
    intro len i hfuel
    unfold AUDIO_SAMPLES_PER_PACKET at *
    simp [startAudioGo]
    omega
  | succ fuel ih =>
    intro len i hfuel
    by_cases hlt : i * AUDIO_SAMPLES_PER_PACKET < len
    · rw [startAudioGo, if_pos hlt]
      have hrec := ih len (i + 1) (by unfold AUDIO_SAMPLES_PER_PACKET at *; omega)
      simp only [List.length_cons, hrec]
      unfold AUDIO_SAMPLES_PER_PACKET at *
      omega
    · rw [startAudioGo, if_neg hlt]
      unfold AUDIO_SAMPLES_PER_PACKET at *
      simp
      omega

/-- C9.  Audio timestamping: the `i`-th audio packet carries timestamp
`i * AUDIO_SAMPLES_PER_PACKET`; every non-final packet carries exactly
`AUDIO_SAMPLES_PER_PACKET` samples (so between consecutive packets the
timestamp advances by exactly the sample count of the earlier packet), and
only the final packet may carry fewer
(`min AUDIO_SAMPLES_PER_PACKET (len - i * AUDIO_SAMPLES_PER_PACKET)`). -/
theorem c9_audio_timestamping (len j : Nat) (hj : j < (start_audio len).length) :
    (start_audio len).length
        = (len + (AUDIO_SAMPLES_PER_PACKET - 1)) / AUDIO_SAMPLES_PER_PACKET
      ∧ ((start_audio len).getD j (0, 0)).1 = j * AUDIO_SAMPLES_PER_PACKET
      ∧ ((start_audio len).getD j (0, 0)).2
          = min AUDIO_SAMPLES_PER_PACKET (len - j * AUDIO_SAMPLES_PER_PACKET)
      ∧ (j + 1 < (start_audio len).length →
          ((start_audio len).getD j (0, 0)).2 = AUDIO_SAMPLES_PER_PACKET
            ∧ ((start_audio len).getD (j + 1) (0, 0)).1
                = ((start_audio len).getD j (0, 0)).1
                    + ((start_audio len).getD j (0, 0)).2) := by
  have hlen : (start_audio len).length
      = (len + (AUDIO_SAMPLES_PER_PACKET - 1)) / AUDIO_SAMPLES_PER_PACKET := by
    have := startAudioGo_length (len + 1) len 0
      (by unfold AUDIO_SAMPLES_PER_PACKET; omega)
    simpa [start_audio] using this
  have hget := startAudioGo_getD (len + 1) len 0 j (by simpa [start_audio] using hj)
  rw [start_audio] at *
  refine ⟨hlen, ?_, ?_, ?_⟩
  · rw [hget]; simp
  · rw [hget]; simp
  · intro hj1
    have hget1 := startAudioGo_getD (len + 1) len 0 (j + 1) (by simpa using hj1)
    rw [hget, hget1]
    have hbound : j + 1 < (len + (AUDIO_SAMPLES_PER_PACKET - 1)) / AUDIO_SAMPLES_PER_PACKET := by
      rw [← hlen]; simpa using hj1
    unfold AUDIO_SAMPLES_PER_PACKET at *
    constructor
    · simp only []
      omega
    · simp only []
      omega

/-- Witness for C9 on a 330-sample buffer (three packets of 160, 160 and 10
samples), checked at the middle packet. -/
theorem c9_audio_timestamping_witness :
    (start_audio 330).length
        = (330 + (AUDIO_SAMPLES_PER_PACKET - 1)) / AUDIO_SAMPLES_PER_PACKET
      ∧ ((start_audio 330).getD 1 (0, 0)).1 = 1 * AUDIO_SAMPLES_PER_PACKET
      ∧ ((start_audio 330).getD 1 (0, 0)).2
          = min AUDIO_SAMPLES_PER_PACKET (330 - 1 * AUDIO_SAMPLES_PER_PACKET)
      ∧ (1 + 1 < (start_audio 330).length →
          ((start_audio 330).getD 1 (0, 0)).2 = AUDIO_SAMPLES_PER_PACKET
            ∧ ((start_audio 330).getD (1 + 1) (0, 0)).1
                = ((start_audio 330).getD 1 (0, 0)).1
                    + ((start_audio 330).getD 1 (0, 0)).2) :=
  c9_audio_timestamping 330 1 (by decide)

/-! ## NAL unit splitting (`start_video` in `examples/server.c`) -/

/-- The 3-byte Annex-B start code `00 00 01`. -/
def sc3 : List Nat := [0, 0, 1]

/-- The 4-byte Annex-B start code `00 00 00 01`. -/
def sc4 : List Nat := [0, 0, 0, 1]

/-- A `SmolRTSP_NalStartCodeTester`: reports the start-code length when the
window begins with the given start code, and 0 otherwise. -/
def nalTester (sc video : List Nat) : Nat :=
  if sc.isPrefixOf video then sc.length else 0

/-- Modelled from the spec: `smolrtsp_determine_start_code` (not among the
provided sources).  §4.5: the start-code width (3- vs 4-byte) is determined
once, from the stream's first start-code occurrence; `none` when the stream
contains no start code (`start_video` aborts in that case). -/
def smolrtsp_determine_start_code : List Nat → Option (List Nat)
  | [] => none
  | b :: rest =>
    if sc4.isPrefixOf (b :: rest) then some sc4
    else if sc3.isPrefixOf (b :: rest) then some sc3
    else smolrtsp_determine_start_code rest

/-- The scan loop of `start_video`.  `acc` is the unit being accumulated:
`none` models `nalu_start == NULL` (no start code seen yet), `some u` the
bytes `[nalu_start, video.ptr)`.  When the tester reports no start code the
scanner advances by exactly one byte; on a start code it emits the
accumulated unit (if any), skips the code, and starts a new unit.  When the
stream is exhausted the C code unconditionally calls
`send_nalu(transport, &timestamp, nalu_start, video.ptr)`; with
`nalu_start == NULL` that dereferences a NULL pointer, modelled `none`.
The fuel argument only bounds the recursion (`none` on exhaustion);
`video.length + 1` always suffices since every step drops at least one
byte. -/
def scanGo (sc : List Nat) :
    Nat → List Nat → Option (List Nat) → List (List Nat) → Option (List (List Nat))
  | 0, _, _, _ => none
  | fuel + 1, video, acc, out =>
    match video with
    | [] =>
      match acc with
      | none => none
      | some u => some (out ++ [u])
    | b :: rest =>
      if nalTester sc (b :: rest) = 0 then
        scanGo sc fuel rest (acc.map fun u => u ++ [b]) out
      else
        scanGo sc fuel ((b :: rest).drop (nalTester sc (b :: rest))) (some [])
          (match acc with | none => out | some u => out ++ [u])

/-- `start_video`: determine the start-code tester once, then scan the whole
stream, yielding the emitted NAL unit byte ranges in order. -/
def start_video (video : List Nat) : Option (List (List Nat)) :=
  match smolrtsp_determine_start_code video with
  | none => none
  | some sc => scanGo sc (video.length + 1) video none []

/-- An Annex-B stream of units, each preceded by the same start code. -/
def annexBStream (sc : List Nat) : List (List Nat) → List Nat
  | [] => []
  | u :: us => sc ++ u ++ annexBStream sc us

/-- One skip step of the scan loop: no start code at the current position
advances by exactly one byte, appending it to the unit in progress. -/
theorem scanGo_skip_step (sc : List Nat) (fuel : Nat) (b : Nat) (rest : List Nat)
    (acc : Option (List Nat)) (out : List (List Nat))
    (h : nalTester sc (b :: rest) = 0) :
    scanGo sc (fuel + 1) (b :: rest) acc out
      = scanGo sc fuel rest (acc.map fun u => u ++ [b]) out := by
  simp [scanGo, h]

/-- One match step of the scan loop, `nalu_start` already set: at a start
code the unit in progress is emitted, the code is skipped, and a new unit
begins. -/
theorem scanGo_match_step_some (sc : List Nat) (fuel : Nat) (x v : List Nat)
    (out : List (List Nat)) (hsc : sc ≠ []) :
    scanGo sc (fuel + 1) (sc ++ x) (some v) out
      = scanGo sc fuel x (some []) (out ++ [v]) := by
  match sc, hsc with
  | s :: ss, _ =>
    have htest : nalTester (s :: ss) (s :: (ss ++ x)) = ss.length + 1 := by
      rw [show s :: (ss ++ x) = (s :: ss) ++ x from rfl, nalTester, if_pos]
      · simp
      · rw [List.isPrefixOf_iff_prefix]
        exact List.prefix_append _ _
    have hdrop : (s :: (ss ++ x)).drop (ss.length + 1) = x := by
      simp
    show scanGo (s :: ss) (fuel + 1) (s :: (ss ++ x)) (some v) out = _
    rw [scanGo, htest]
    rw [if_neg (Nat.succ_ne_zero ss.length), hdrop]

/-- One match step of the scan loop with `nalu_start == NULL` (the stream's
first start code): nothing is emitted, the code is skipped, and the first
unit begins. -/
theorem scanGo_match_step_none (sc : List Nat) (fuel : Nat) (x : List Nat)
    (out : List (List Nat)) (hsc : sc ≠ []) :
    scanGo sc (fuel + 1) (sc ++ x) none out = scanGo sc fuel x (some []) out := by
  match sc, hsc with
  | s :: ss, _ =>
    have htest : nalTester (s :: ss) (s :: (ss ++ x)) = ss.length + 1 := by
      rw [show s :: (ss ++ x) = (s :: ss) ++ x from rfl, nalTester, if_pos]
      · simp
      · rw [List.isPrefixOf_iff_prefix]
        exact List.prefix_append _ _
    have hdrop : (s :: (ss ++ x)).drop (ss.length + 1) = x := by
      simp
    show scanGo (s :: ss) (fuel + 1) (s :: (ss ++ x)) none out = _
    rw [scanGo, htest]
    rw [if_neg (Nat.succ_ne_zero ss.length), hdrop]

/-- No start code ever matches strictly inside the boundary between a unit
and the following start code: both codes end in the byte 1 while all their
other bytes are 0, so a match straddling the boundary is impossible. -/
theorem no_straddling_match (sc : List Nat) (hsc : sc = sc3 ∨ sc = sc4)
    (t : List Nat) (hne : t ≠ []) (hlt : t.length < sc.length) (r : List Nat) :
    ¬ sc <+: t ++ (sc ++ r) := by
  intro hpre
  rcases t with - | ⟨a, t⟩
  · exact hne rfl
  rcases hsc with rfl | rfl
  · rcases t with - | ⟨b, t⟩
    · simp [sc3, List.cons_prefix_cons] at hpre
    rcases t with - | ⟨c, t⟩
    · simp [sc3, List.cons_prefix_cons] at hpre
    exact absurd hlt (by simp [sc3])
  · rcases t with - | ⟨b, t⟩
    · simp [sc4, List.cons_prefix_cons] at hpre
    rcases t with - | ⟨c, t⟩
    · simp [sc4, List.cons_prefix_cons] at hpre
    rcases t with - | ⟨d, t⟩
    · simp [sc4, List.cons_prefix_cons] at hpre
    exact absurd hlt (by simp [sc4])

/-- A start code is never detected while scanning through a unit that does
not contain it, when the remaining stream continues with a start code (or
ends): the scanner walks the whole unit byte by byte and accumulates it. -/
theorem scanGo_through_unit (sc : List Nat) (hsc : sc = sc3 ∨ sc = sc4) :
    ∀ (u : List Nat) (fuel : Nat) (v : List Nat) (out : List (List Nat)) (r : List Nat),
      ¬ sc <:+: u → (r = [] ∨ sc <+: r) →
      scanGo sc (u.length + fuel) (u ++ r) (some v) out
        = scanGo sc fuel r (some (v ++ u)) out := by
  intro u
  induction u with
  | nil => intro fuel v out r _ _; simp
  | cons b u ih =>
    intro fuel v out r hinf hr
    have hsclen : 3 ≤ sc.length := by rcases hsc with h | h <;> simp [h, sc3, sc4]
    have hnopre : ¬ sc <+: (b :: u) ++ r := by
      intro hpre
      by_cases hlen : sc.length ≤ (b :: u).length
      · exact hinf (List.IsPrefix.isInfix
          (List.prefix_of_prefix_length_le hpre (List.prefix_append _ _) hlen))
      · rcases hr with h | h
        · subst h
          rw [List.append_nil] at hpre
          exact hlen hpre.length_le
        · obtain ⟨r', rfl⟩ := h
          exact no_straddling_match sc hsc (b :: u) (by simp) (by omega) r' hpre
    have htest : nalTester sc ((b :: u) ++ r) = 0 := by
      rw [nalTester, if_neg]
      rw [List.isPrefixOf_iff_prefix]
      exact hnopre
    have hfuel : (b :: u).length + fuel = (u.length + fuel) + 1 := by
      simp only [List.length_cons]; omega
    rw [hfuel]
    rw [List.cons_append] at htest ⊢
    rw [scanGo_skip_step sc (u.length + fuel) b (u ++ r) (some v) out htest]
    have hstep := ih fuel (v ++ [b]) out r
      (fun hi => hinf (List.infix_cons hi)) hr
    simpa using hstep

/-- Scanning the tail of a well-formed Annex-B stream (`v` is the unit
accumulated so far) emits `v` and then every remaining unit, in order. -/
theorem scanGo_stream (sc : List Nat) (hsc : sc = sc3 ∨ sc = sc4) :
    ∀ (us : List (List Nat)) (fuel : Nat) (v : List Nat) (out : List (List Nat)),
      (∀ u ∈ us, ¬ sc <:+: u) →
      scanGo sc ((annexBStream sc us).length + (fuel + 1)) (annexBStream sc us) (some v) out
        = some (out ++ v :: us) := by
  intro us
  induction us with
  | nil => intro fuel v out _; simp [annexBStream, scanGo]
  | cons u us ih =>
    intro fuel v out hclean
    have hscne : sc ≠ [] := by rcases hsc with h | h <;> simp [h, sc3, sc4]
    have hsclen : 1 ≤ sc.length := by rcases hsc with h | h <;> simp [h, sc3, sc4]
    have hstream : annexBStream sc (u :: us) = sc ++ (u ++ annexBStream sc us) := by
      simp [annexBStream]
    have hfuel : (annexBStream sc (u :: us)).length + (fuel + 1)
        = (u.length + (sc.length - 1 + (annexBStream sc us).length + fuel + 1)) + 1 := by
      rw [hstream]
      simp only [List.length_append]
      omega
    rw [hfuel, hstream]
    rw [scanGo_match_step_some sc _ (u ++ annexBStream sc us) v out hscne]
    rw [scanGo_through_unit sc hsc u _ [] (out ++ [v]) (annexBStream sc us)
      (hclean u (by simp)) ?hr]
    case hr =>
      cases us with
      | nil => exact Or.inl rfl
      | cons w ws =>
        refine Or.inr ?_
        rw [show annexBStream sc (w :: ws) = sc ++ (w ++ annexBStream sc ws) by
          simp [annexBStream]]
        exact List.prefix_append _ _
    have hfuel2 : sc.length - 1 + (annexBStream sc us).length + fuel + 1
        = (annexBStream sc us).length + ((sc.length - 1 + fuel) + 1) := by omega
    rw [hfuel2]
    rw [ih (sc.length - 1 + fuel) ([] ++ u) (out ++ [v])
      (fun w hw => hclean w (by simp [hw]))]
    simp

/-- On a stream beginning with a 3-byte start code, the width detection
picks the 3-byte code. -/
theorem determine_sc3_of_lead (y : List Nat) :
    smolrtsp_determine_start_code (sc3 ++ y) = some sc3 := by
  show smolrtsp_determine_start_code (0 :: 0 :: 1 :: y) = some sc3
  have h4 : sc4.isPrefixOf (0 :: 0 :: 1 :: y) = false := by
    simp [sc4, List.isPrefixOf]
  have h3 : sc3.isPrefixOf (0 :: 0 :: 1 :: y) = true := by
    simp [sc3, List.isPrefixOf]
  simp [smolrtsp_determine_start_code, h4, h3]

/-- On a stream beginning with a 4-byte start code, the width detection
picks the 4-byte code. -/
theorem determine_sc4_of_lead (y : List Nat) :
    smolrtsp_determine_start_code (sc4 ++ y) = some sc4 := by
  show smolrtsp_determine_start_code (0 :: 0 :: 0 :: 1 :: y) = some sc4
  have h4 : sc4.isPrefixOf (0 :: 0 :: 0 :: 1 :: y) = true := by
    simp [sc4, List.isPrefixOf]
  simp [smolrtsp_determine_start_code, h4]

/-- Scanning a well-formed Annex-B stream from the start yields exactly its
units, provided the width detection returned the stream's start code. -/
theorem start_video_stream (sc : List Nat) (us : List (List Nat))
    (hsc : sc = sc3 ∨ sc = sc4) (hne : us ≠ [])
    (hclean : ∀ u ∈ us, ¬ sc <:+: u)
    (hdet : smolrtsp_determine_start_code (annexBStream sc us) = some sc) :
    start_video (annexBStream sc us) = some us := by
  obtain ⟨u1, rest, rfl⟩ : ∃ u1 rest, us = u1 :: rest := by
    cases us with
    | nil => exact absurd rfl hne
    | cons u1 rest => exact ⟨u1, rest, rfl⟩
  have hscne : sc ≠ [] := by rcases hsc with h | h <;> simp [h, sc3, sc4]
  have hsclen : 1 ≤ sc.length := by rcases hsc with h | h <;> simp [h, sc3, sc4]
  have hstream : annexBStream sc (u1 :: rest) = sc ++ (u1 ++ annexBStream sc rest) := by
    simp [annexBStream]
  have hr : annexBStream sc rest = [] ∨ sc <+: annexBStream sc rest := by
    cases rest with
    | nil => exact Or.inl rfl
    | cons w ws =>
      refine Or.inr ?_
      rw [show annexBStream sc (w :: ws) = sc ++ (w ++ annexBStream sc ws) by
        simp [annexBStream]]
      exact List.prefix_append _ _
  simp only [start_video, hdet]
  rw [hstream]
  rw [scanGo_match_step_none sc _ _ [] hscne]
  have hlen : (sc ++ (u1 ++ annexBStream sc rest)).length
      = u1.length + ((annexBStream sc rest).length + ((sc.length - 1) + 1)) := by
    simp only [List.length_append]
    omega
  rw [hlen]
  rw [scanGo_through_unit sc hsc u1 _ [] [] (annexBStream sc rest)
    (hclean u1 (by simp)) hr]
  rw [scanGo_stream sc hsc rest (sc.length - 1) ([] ++ u1) []
    (fun w hw => hclean w (by simp [hw]))]
  simp

/-- C7.  NAL round-trip: splitting an Annex-B stream of `K` concatenated
units with a uniform start-code width yields exactly those `K` unit byte
ranges (each the original unit minus its start code), and for each emitted
range the first byte is decoded as the NAL header while the payload is
exactly the bytes strictly between that header byte and the next start code
(the last unit running to end-of-stream). -/
theorem c7_nal_round_trip (sc : List Nat) (us : List (List Nat))
    (hsc : sc = sc3 ∨ sc = sc4) (hne : us ≠ [])
    (hu : ∀ u ∈ us, u ≠ [] ∧ ¬ sc <:+: u) :
    start_video (annexBStream sc us) = some us
      ∧ ∀ u ∈ us, naluOf u = ⟨SmolRTSP_H264NalHeader_parse (u.headD 0), u.tail⟩ := by
  refine ⟨?_, fun u _ => rfl⟩
  apply start_video_stream sc us hsc hne (fun u hu' => (hu u hu').2)
  obtain ⟨u1, rest, rfl⟩ : ∃ u1 rest, us = u1 :: rest := by
    cases us with
    | nil => exact absurd rfl hne
    | cons u1 rest => exact ⟨u1, rest, rfl⟩
  have hstream : annexBStream sc (u1 :: rest) = sc ++ (u1 ++ annexBStream sc rest) := by
    simp [annexBStream]
  rw [hstream]
  rcases hsc with rfl | rfl
  · exact determine_sc3_of_lead _
  · exact determine_sc4_of_lead _

/-- Witness for C7: a 4-byte-start-code stream of two units. -/
theorem c7_nal_round_trip_witness :
    start_video (annexBStream sc4 [[9, 170], [65, 0]]) = some [[9, 170], [65, 0]]
      ∧ ∀ u ∈ [[9, 170], [65, 0]],
          naluOf u = ⟨SmolRTSP_H264NalHeader_parse (u.headD 0), u.tail⟩ :=
  c7_nal_round_trip sc4 [[9, 170], [65, 0]] (Or.inr rfl) (by decide) (by decide)

/-- A single zero byte of padding before a 4-byte start code is not itself a
start-code position: neither tester matches there. -/
theorem determine_pad4 (y : List Nat) :
    smolrtsp_determine_start_code (0 :: (sc4 ++ y)) = some sc4 := by
  show smolrtsp_determine_start_code (0 :: 0 :: 0 :: 0 :: 1 :: y) = some sc4
  have h4 : sc4.isPrefixOf (0 :: 0 :: 0 :: 0 :: 1 :: y) = false := by
    simp [sc4, List.isPrefixOf]
  have h3 : sc3.isPrefixOf (0 :: 0 :: 0 :: 0 :: 1 :: y) = false := by
    simp [sc3, List.isPrefixOf]
  rw [smolrtsp_determine_start_code, h4, h3]
  simp only [Bool.false_eq_true, if_false]
  exact determine_sc4_of_lead y

/-- C8.  Start-code handling: on a stream with one zero byte of padding
before a 4-byte-start-code Annex-B stream, the width is still determined
(once, from the stream's first start-code occurrence) as the 4-byte code;
whenever the tester reports no start code the scanner advances by exactly
one byte (last conjunct — the body of the `0 == start_code_len` branch), so
the padding byte is skipped rather than treated as an error and the scan
yields exactly the same units as without the padding. -/
theorem c8_padding_skipped (us : List (List Nat)) (hne : us ≠ [])
    (hu : ∀ u ∈ us, u ≠ [] ∧ ¬ sc4 <:+: u) :
    smolrtsp_determine_start_code (0 :: annexBStream sc4 us) = some sc4
      ∧ start_video (0 :: annexBStream sc4 us) = start_video (annexBStream sc4 us)
      ∧ start_video (0 :: annexBStream sc4 us) = some us
      ∧ (∀ (fuel b : Nat) (rest : List Nat) (acc : Option (List Nat))
          (out : List (List Nat)), nalTester sc4 (b :: rest) = 0 →
          scanGo sc4 (fuel + 1) (b :: rest) acc out
            = scanGo sc4 fuel rest (acc.map fun u => u ++ [b]) out) := by
  obtain ⟨u1, rest, rfl⟩ : ∃ u1 rest, us = u1 :: rest := by
    cases us with
    | nil => exact absurd rfl hne
    | cons u1 rest => exact ⟨u1, rest, rfl⟩
  have hstream : annexBStream sc4 (u1 :: rest) = sc4 ++ (u1 ++ annexBStream sc4 rest) := by
    simp [annexBStream]
  have hdet : smolrtsp_determine_start_code (annexBStream sc4 (u1 :: rest)) = some sc4 := by
    rw [hstream]; exact determine_sc4_of_lead _
  have hdetpad : smolrtsp_determine_start_code (0 :: annexBStream sc4 (u1 :: rest))
      = some sc4 := by
    rw [hstream]; exact determine_pad4 _
  have htest0 : nalTester sc4 (0 :: annexBStream sc4 (u1 :: rest)) = 0 := by
    rw [hstream]
    show nalTester sc4 (0 :: 0 :: 0 :: 0 :: 1 :: (u1 ++ annexBStream sc4 rest)) = 0
    simp [nalTester, sc4, List.isPrefixOf]
  have hskip : start_video (0 :: annexBStream sc4 (u1 :: rest))
      = start_video (annexBStream sc4 (u1 :: rest)) := by
    simp only [start_video, hdetpad, hdet]
    rw [show (0 :: annexBStream sc4 (u1 :: rest)).length
        = (annexBStream sc4 (u1 :: rest)).length + 1 from by simp]
    rw [scanGo_skip_step sc4 _ 0 _ none [] htest0]
    rfl
  have hmain : start_video (annexBStream sc4 (u1 :: rest)) = some (u1 :: rest) :=
    start_video_stream sc4 (u1 :: rest) (Or.inr rfl) (by simp)
      (fun u hu' => (hu u hu').2) hdet
  exact ⟨hdetpad, hskip, hskip.trans hmain,
    fun fuel b r acc out h => scanGo_skip_step sc4 fuel b r acc out h⟩

/-- Witness for C8: padding zero before a 4-byte-start-code stream of two
units. -/
theorem c8_padding_skipped_witness :
    smolrtsp_determine_start_code (0 :: annexBStream sc4 [[9, 170], [65, 7]]) = some sc4
      ∧ start_video (0 :: annexBStream sc4 [[9, 170], [65, 7]])
          = start_video (annexBStream sc4 [[9, 170], [65, 7]])
      ∧ start_video (0 :: annexBStream sc4 [[9, 170], [65, 7]]) = some [[9, 170], [65, 7]]
      ∧ (∀ (fuel b : Nat) (rest : List Nat) (acc : Option (List Nat))
          (out : List (List Nat)), nalTester sc4 (b :: rest) = 0 →
          scanGo sc4 (fuel + 1) (b :: rest) acc out
            = scanGo sc4 fuel rest (acc.map fun u => u ++ [b]) out) :=
  c8_padding_skipped [[9, 170], [65, 7]] (by decide) (by decide)

/-! ## Parse-error diagnostics (`SmolRTSP_ParseError_print`) -/

/-- The `SmolRTSP_ParseType` enum. -/
inductive ParseType where
  | Int
  | Ident
  | HeaderName
deriving DecidableEq, Repr

/-- `SmolRTSP_ParseType_str`. -/
def SmolRTSP_ParseType_str : ParseType → List Char
  | .Int => "Integer".toList
  | .Ident => "Identifier".toList
  | .HeaderName => "Header name".toList

/-- `SmolRTSP_ParseError`: the tagged error variants with the slices they
carry (§3). -/
inductive ParseError where
  | ContentLength (value : List Char)
  | StrMismatch (expected actual : List Char)
  | TypeMismatch (kind : ParseType) (str : List Char)
  | HeaderMapOverflow
deriving DecidableEq, Repr

/-- `SmolRTSP_ParseError_print`: renders the error through the writer; the
written output is the concatenation of the slices passed to the writer, in
order, exactly as in `SMOLRTSP_WRITE_SLICES`.  The function's only input
besides the writer is the error value itself — no access to the original
parse input. -/
def SmolRTSP_ParseError_print : ParseError → List Char
  | .ContentLength value =>
    "Invalid Content-Length `".toList ++ value ++ "`.".toList
  | .StrMismatch expected actual =>
    "String mismatch: expected `".toList ++ expected
      ++ "`, found `".toList ++ actual ++ "`.".toList
  | .TypeMismatch kind str =>
    "Type mismatch: expected ".toList ++ SmolRTSP_ParseType_str kind
      ++ ", found `".toList ++ str ++ "`.".toList
  | .HeaderMapOverflow =>
    "Not enough space left in the header map.".toList

/-- C10.  Error diagnostics without re-scanning: each variant renders a
human-readable message built only from the data carried in the error value —
for `ContentLength` the offending token, for `StrMismatch` the expected and
actual slices, for `TypeMismatch` the expected kind's name and the offending
token, for `HeaderMapOverflow` a fixed capacity message — and the output
contains every carried slice verbatim (as a contiguous substring). -/
theorem c10_error_rendering (v e a s : List Char) (k : ParseType) :
    SmolRTSP_ParseError_print (.ContentLength v)
        = "Invalid Content-Length `".toList ++ v ++ "`.".toList
      ∧ SmolRTSP_ParseError_print (.StrMismatch e a)
          = "String mismatch: expected `".toList ++ e
              ++ "`, found `".toList ++ a ++ "`.".toList
      ∧ SmolRTSP_ParseError_print (.TypeMismatch k s)
          = "Type mismatch: expected ".toList ++ SmolRTSP_ParseType_str k
              ++ ", found `".toList ++ s ++ "`.".toList
      ∧ SmolRTSP_ParseError_print .HeaderMapOverflow
          = "Not enough space left in the header map.".toList
      ∧ v <:+: SmolRTSP_ParseError_print (.ContentLength v)
      ∧ e <:+: SmolRTSP_ParseError_print (.StrMismatch e a)
      ∧ a <:+: SmolRTSP_ParseError_print (.StrMismatch e a)
      ∧ s <:+: SmolRTSP_ParseError_print (.TypeMismatch k s) := by
  refine ⟨rfl, rfl, rfl, rfl, ?_, ?_, ?_, ?_⟩
  · exact ⟨"Invalid Content-Length `".toList, "`.".toList, by simp [SmolRTSP_ParseError_print]⟩
  · exact ⟨"String mismatch: expected `".toList,
      "`, found `".toList ++ a ++ "`.".toList, by simp [SmolRTSP_ParseError_print]⟩
  · exact ⟨"String mismatch: expected `".toList ++ e ++ "`, found `".toList,
      "`.".toList, by simp [SmolRTSP_ParseError_print]⟩
  · exact ⟨"Type mismatch: expected ".toList ++ SmolRTSP_ParseType_str k
        ++ ", found `".toList, "`.".toList, by simp [SmolRTSP_ParseError_print]⟩
